import Mathlib

/-
  Verification of the bindwrap supervisor (src/obj/bindwrap.c) and the
  interop bridge (src/obj/native.c) of the fastcgi4j repository.

  C strings are modelled as Lists of characters; the terminating NUL byte of
  a C string is the end of the list, so a well-formed C string contains no
  NUL character.  Machine integers that matter (wait statuses, errno values,
  byte values) are modelled as Nat or Int with explicit reductions modulo
  powers of two where the C code truncates or converts.
-/

set_option autoImplicit false

namespace Bindwrap

/-- Name of the environment variable naming a filesystem-path bind target
(UNIX_BIND_VAR in bindwrap.c). -/
def UNIX_BIND_VAR : List Char := "FASTCGI4J_UNIX_BIND".data

/-- Name of the environment variable naming a network bind target
(INET_BIND_VAR in bindwrap.c). -/
def INET_BIND_VAR : List Char := "FASTCGI4J_INET_BIND".data

/-- Embedding of match_var (bindwrap.c, lines 62-69).  The C loop advances
while the current characters of vname and the environment entry are equal
and neither string has ended and the entry character is not the separator;
on exit it reports whether the entry character under the cursor is the
separator.  The end of a list plays the role of the NUL terminator. -/
def match_var : List Char → List Char → Bool
  | vc :: vs, ec :: es =>
    if vc = ec ∧ vc ≠ Char.ofNat 0 ∧ ec ≠ Char.ofNat 0 ∧ ec ≠ '=' then
      match_var vs es
    else decide (ec = '=')
  | [], ec :: _ => decide (ec = '=')
  | _, [] => false

/-- Embedding of the environment-construction loop of main (bindwrap.c,
lines 310-323): every inherited entry is kept, in order, unless match_var
accepts it for either bind variable. -/
def build_env (environ : List (List Char)) : List (List Char) :=
  environ.filter fun e => !(match_var UNIX_BIND_VAR e) && !(match_var INET_BIND_VAR e)

/-- Destination buffer produced by strncpy(dest, src, lim): the first lim
characters of src, padded with NUL bytes up to length lim when src is
shorter (bindwrap.c, line 85). -/
def strncpyDest (src : List Char) (lim : Nat) : List Char :=
  src.take lim ++ List.replicate (lim - src.length) (Char.ofNat 0)

/-- Embedding of trunc_strncpy (bindwrap.c, lines 74-90): after the copy it
reports truncation exactly when the final byte of the destination buffer is
not NUL. -/
def trunc_strncpy (src : List Char) (lim : Nat) : Bool :=
  decide ((strncpyDest src lim).getD (lim - 1) (Char.ofNat 0) ≠ Char.ofNat 0)

/-- Observable steps of the filesystem-path setup branch of main
(bindwrap.c, lines 98-131), in program order. -/
inductive UStep
  | socketCreate
  | socketFailStep
  | pathTooLong
  | bindCall
  | bindFailStep
  | chmodCall
  deriving DecidableEq

/-- Fatal outcomes of the filesystem-path setup branch. -/
inductive UnixErr
  | socketErr
  | pathLenErr
  | bindErr
  deriving DecidableEq

/-- Embedding of the filesystem-path setup branch of main (bindwrap.c,
lines 98-131): the PF_UNIX socket is created first; only then is the
configured path length checked with trunc_strncpy; only then is bind
attempted; finally, when the peer-trust variable is present, the rendezvous
path permissions are widened with chmod.  The Booleans stand for the
success of the socket and bind system calls. -/
def unixBranch (path : List Char) (cap : Nat) (sockOk bindOk peers : Bool) :
    List UStep × Option UnixErr :=
  if sockOk = false then
    ([UStep.socketFailStep], some UnixErr.socketErr)
  else if trunc_strncpy path cap then
    ([UStep.socketCreate, UStep.pathTooLong], some UnixErr.pathLenErr)
  else if bindOk = false then
    ([UStep.socketCreate, UStep.bindCall, UStep.bindFailStep], some UnixErr.bindErr)
  else if peers then
    ([UStep.socketCreate, UStep.bindCall, UStep.chmodCall], none)
  else
    ([UStep.socketCreate, UStep.bindCall], none)

/-- Embedding of strrchr(s, c): the index of the last occurrence of c in s,
or none when c does not occur.  The recursion prefers an occurrence in the
tail, matching the last-occurrence semantics of the C library call used at
bindwrap.c lines 139-140. -/
def strrchr (s : List Char) (c : Char) : Option Nat :=
  match s with
  | [] => none
  | x :: xs =>
    match strrchr xs c with
    | some i => some (i + 1)
    | none => if x = c then some 0 else none

/-- Result of splitting a network-endpoint configuration string. -/
inductive InetParse
  | split (node : Option (List Char)) (service : List Char)
  | portRequired
  deriving DecidableEq

/-- Embedding of the host:service splitting logic of main (bindwrap.c,
lines 132-154).  The last colon and the last closing bracket are located;
when there is no colon, or the last bracket lies to the right of the last
colon, the whole string is a bare service unless it opens with a bracket,
in which case the port-required error is reported; otherwise the string is
split at the last colon into a node part and a service part. -/
def parseInetAddr (buf : List Char) : InetParse :=
  match strrchr buf ':' with
  | none =>
    if (strrchr buf ']').isSome ∧ buf.headD (Char.ofNat 0) = '[' then
      InetParse.portRequired
    else InetParse.split none buf
  | some col =>
    match strrchr buf ']' with
    | some brac =>
      if col < brac then
        if buf.headD (Char.ofNat 0) = '[' then InetParse.portRequired
        else InetParse.split none buf
      else InetParse.split (some (buf.take col)) (buf.drop (col + 1))
    | none => InetParse.split (some (buf.take col)) (buf.drop (col + 1))

/-- Resolver candidate for the network-endpoint mode, abstracting one entry
of the getaddrinfo result list: its address family, the outcome of the
socket call (none means success, some e means failure with errno e), the
outcome of the bind call, and the errno value the cleanup close call would
leave behind if it clobbered errno. -/
structure Candidate where
  family : Nat
  socketErrno : Option Nat
  bindErrnoVal : Option Nat
  closeErrno : Nat
  deriving DecidableEq

/-- Outcome of the candidate loop of main (bindwrap.c, lines 174-207). -/
inductive TryResult
  | success (family : Nat)
  | failure (mom fam errno : Nat)
  | assertFailed
  deriving DecidableEq

/-- Embedding of the candidate loop and its failure report (bindwrap.c,
lines 174-207).  State threaded through the loop: the current errno value,
the failure mode mom (0 none yet, 1 socket failure, 2 bind failure), and
fam, the family of the last attempted candidate.  On a bind failure the
original errno is saved, the cleanup close may clobber errno, and the saved
value is restored before continuing, exactly as in the source.  After the
loop, a report is produced from mom, fam and errno; reaching the report
with mom still 0 would fail the assertion in the source. -/
def tryCandidates (errno mom fam : Nat) : List Candidate → TryResult
  | [] => if mom = 0 then TryResult.assertFailed else TryResult.failure mom fam errno
  | c :: rest =>
    match c.socketErrno with
    | some e => tryCandidates e 1 c.family rest
    | none =>
      match c.bindErrnoVal with
      | some e =>
        let ec := e
        let _clobbered := c.closeErrno
        let restored := ec
        tryCandidates restored 2 c.family rest
      | none => TryResult.success c.family

/-- A candidate on which the loop does not stop: its socket call or its
bind call fails. -/
def candFails (c : Candidate) : Bool :=
  c.socketErrno.isSome || c.bindErrnoVal.isSome

/-- The failure mode recorded after attempting a failing candidate. -/
def candMom (c : Candidate) : Nat :=
  if c.socketErrno.isSome then 1 else 2

/-- The errno value left after attempting a failing candidate: the socket
errno when socket creation failed, otherwise the original bind errno,
independent of whatever the cleanup close sets. -/
def candErrno (c : Candidate) : Nat :=
  match c.socketErrno with
  | some e => e
  | none => c.bindErrnoVal.getD 0

/-- Outcome of one non-blocking waitpid call in the SIGCHLD handler of the
parent loop (bindwrap.c, lines 292-304).  Since waitpid is called with the
specific child pid and WNOHANG, the only possible outcomes are: a negative
return with errno EINTR, a negative return with any other errno, the child
pid with a raw wait status, or zero when the child is not yet reapable
(for instance after a stop or continue notification, or a SIGCHLD sent by
hand). -/
inductive WaitRes
  | errEintr
  | errOther
  | reaped (stat : Nat)
  | noChild
  deriving DecidableEq

/-- One event read from the signal descriptor by the parent loop, or a
failure of that read (bindwrap.c, lines 271-306).  A chld event carries the
sequence of waitpid outcomes the inner reap loop observes. -/
inductive SigEvent
  | term
  | intr
  | hup
  | readFail
  | chld (waits : List WaitRes)

/-- Observable actions of the parent branch of main, in program order. -/
inductive PAct
  | forwardTerm
  | killOnReadFail
  | waitRetry
  | reap (stat : Nat)
  | removePath
  | assertAbort
  | fatalExit
  deriving DecidableEq

/-- Terminal condition of the modelled parent branch. -/
inductive ParentEnd
  | exited (status : Nat)
  | fatal
  | aborted
  | spinning
  | blocked
  deriving DecidableEq

/-- Embedding of the WEXITSTATUS macro of the platform: the second-lowest
byte of the raw wait status. -/
def wexitstatus (stat : Nat) : Nat := (stat / 256) % 256

/-- Termination of the child as the kernel reports it. -/
inductive ChildTermination
  | exitedNormally (code : Nat)
  | signaled (sig : Nat) (core : Bool)

/-- Modelled from the platform wait-status encoding used by the source
through the WEXITSTATUS macro: a normal exit with code c is reported as
(c mod 256) shifted into the second byte; a termination by signal s is
reported as (s mod 128) in the low seven bits, plus the core-dump flag in
bit seven.  The repository itself contains no definition of this layout;
it is the documented encoding of the platform the source targets. -/
def encodeWaitStatus : ChildTermination → Nat
  | ChildTermination.exitedNormally code => (code % 256) * 256
  | ChildTermination.signaled sig core => sig % 128 + (if core then 128 else 0)

/-- Embedding of the inner reap loop run on a SIGCHLD event (bindwrap.c,
lines 292-304): an interrupted wait is retried; any other wait failure is
fatal; a wait that returns the child pid passes the assertion, after which
the rendezvous path is removed and the parent returns the WEXITSTATUS of
the raw status; a wait that returns zero reaches the assertion with a
value different from the child pid, so the assertion aborts the process.
The outcome is none when the modelled outcome list is exhausted with the
loop still running. -/
def reapLoop : List WaitRes → List PAct × Option ParentEnd
  | [] => ([], none)
  | WaitRes.errEintr :: rest =>
    let r := reapLoop rest
    (PAct.waitRetry :: r.1, r.2)
  | WaitRes.errOther :: _ => ([PAct.fatalExit], some ParentEnd.fatal)
  | WaitRes.reaped stat :: _ =>
    ([PAct.reap stat, PAct.removePath],
      some (ParentEnd.exited (wexitstatus stat)))
  | WaitRes.noChild :: _ => ([PAct.assertAbort], some ParentEnd.aborted)

/-- Embedding of the parent signal loop (bindwrap.c, lines 266-307): a
failed read of the signal descriptor terminates the child and exits
fatally; a terminate signal is forwarded to the child and the loop
continues; interrupt and hangup are ignored and the loop continues; a
child-terminated event enters the inner reap loop and never returns to the
outer loop.  An exhausted event list leaves the parent blocked in the read. -/
def parentLoop : List SigEvent → List PAct × ParentEnd
  | [] => ([], ParentEnd.blocked)
  | SigEvent.readFail :: _ =>
    ([PAct.killOnReadFail, PAct.fatalExit], ParentEnd.fatal)
  | SigEvent.term :: rest =>
    let r := parentLoop rest
    (PAct.forwardTerm :: r.1, r.2)
  | SigEvent.intr :: rest => parentLoop rest
  | SigEvent.hup :: rest => parentLoop rest
  | SigEvent.chld waits :: _ =>
    let r := reapLoop waits
    (r.1,
      match r.2 with
      | some e => e
      | none => ParentEnd.spinning)

/-- Number of rendezvous-path removals in an action trace. -/
def countRemoves : List PAct → Nat
  | [] => 0
  | PAct.removePath :: rest => countRemoves rest + 1
  | _ :: rest => countRemoves rest

/-- Number of successful reaps in an action trace. -/
def countReaps : List PAct → Nat
  | [] => 0
  | PAct.reap _ :: rest => countReaps rest + 1
  | _ :: rest => countReaps rest

/-- Scan of an action trace checking that every removal of the rendezvous
path immediately follows a confirmed reap of the child. -/
def removesFollowReaps : List PAct → Bool
  | [] => true
  | PAct.reap _ :: PAct.removePath :: rest => removesFollowReaps rest
  | PAct.removePath :: _ => false
  | _ :: rest => removesFollowReaps rest

/-- Outcome of one one-byte send call in the interop bridge.  A
non-negative return is a success (for a one-byte send, zero or one); a
negative return carries an errno. -/
inductive SendOutcome
  | sendOk
  | sendErr (e : Nat)
  deriving DecidableEq

/-- Result of running the single-byte write loop against a finite sequence
of send outcomes: either the function returned normally after some number
of send calls, or the loop is still running having made that many send
calls. -/
inductive WriteResult
  | returned (sends : Nat)
  | stillLooping (sends : Nat)
  deriving DecidableEq

/-- Embedding of the single-byte writeSocket loop (native.c, lines
278-288): the body sends one byte, raises an exception on a negative
return (which in this interface does not transfer control), and then loops
again with no exit on any outcome, success included.  Consequently the
model consumes every available outcome and no case produces the returned
constructor, exactly as the for loop of the source has no break or return. -/
def writeSocketByte : List SendOutcome → WriteResult
  | [] => WriteResult.stillLooping 0
  | _ :: rest =>
    match writeSocketByte rest with
    | WriteResult.returned n => WriteResult.returned (n + 1)
    | WriteResult.stillLooping n => WriteResult.stillLooping (n + 1)

/-- Outcome of one one-byte recv call in the interop bridge: an error with
an errno, an orderly end of the connection (zero-length receive), or a
received byte. -/
inductive RecvOutcome
  | recvErr (e : Nat)
  | recvClosed
  | recvByte (b : Nat)
  deriving DecidableEq

/-- Embedding of the single-byte readSocket operation (native.c, lines
345-357): a negative recv raises an exception and returns -1; a zero
recv returns -1; otherwise the received byte is held in a plain char,
which is signed on the reference ABI of the source, so the value is first
sign-extended, then cast to unsigned (reduced modulo 2^32), and finally
converted to the signed 32-bit return type.  The pair holds the returned
value and whether an exception was raised. -/
def readSocketByte : RecvOutcome → Int × Bool
  | RecvOutcome.recvErr _ => (-1, true)
  | RecvOutcome.recvClosed => (-1, false)
  | RecvOutcome.recvByte b =>
    let bv := b % 256
    let charVal : Int := if bv < 128 then (bv : Int) else (bv : Int) - 256
    let unsignedVal : Int := if charVal < 0 then charVal + 2 ^ 32 else charVal
    let jintVal : Int :=
      if unsignedVal < 2 ^ 31 then unsignedVal else unsignedVal - 2 ^ 32
    (jintVal, false)

/-- Bind-target choice produced from the two environment variables. -/
inductive BindChoice
  | unixMode (path : List Char)
  | inetMode (addr : List Char)
  deriving DecidableEq

/-- Result of inspecting the two bind variables at startup. -/
inductive BindConfigResult
  | chosen (b : BindChoice)
  | missingVarsError
  deriving DecidableEq

/-- Embedding of the top-level if/else-if/else on the two getenv results
(bindwrap.c, lines 94-98 and 208-212): the filesystem-path variable is
examined first, then the network variable, and only when both are absent
does the process fail with the configuration error message. -/
def chooseBind : Option (List Char) → Option (List Char) → BindConfigResult
  | some u, _ => BindConfigResult.chosen (BindChoice.unixMode u)
  | none, some i => BindConfigResult.chosen (BindChoice.inetMode i)
  | none, none => BindConfigResult.missingVarsError

/-- The last occurrence of an absent character is none. -/
theorem strrchr_eq_none (s : List Char) (c : Char) (h : c ∉ s) :
    strrchr s c = none := by
  induction s with
  | nil => rfl
  | cons x xs ih =>
    have hx : ¬(x = c) := fun hc => h (hc ▸ List.mem_cons_self x xs)
    have hxs : c ∉ xs := fun hc => h (List.mem_cons_of_mem x hc)
    simp [strrchr, ih hxs, hx]

/-- Appending in front of a list that contains the character shifts the
last-occurrence index by the length of the front part. -/
theorem strrchr_append_of_some (a b : List Char) (c : Char) (i : Nat)
    (h : strrchr b c = some i) :
    strrchr (a ++ b) c = some (a.length + i) := by
  induction a with
  | nil => simpa using h
  | cons x xs ih =>
    simp only [List.cons_append, List.append_eq, strrchr, ih, List.length_cons]
    congr 1
    omega

/-- Appending in front of a list that lacks the character leaves the
last-occurrence computation to the front part. -/
theorem strrchr_append_of_none (a b : List Char) (c : Char)
    (h : strrchr b c = none) :
    strrchr (a ++ b) c = strrchr a c := by
  induction a with
  | nil => simpa using h
  | cons x xs ih =>
    simp only [List.cons_append, List.append_eq, strrchr, ih]

/-- A last-occurrence index is always in range. -/
theorem strrchr_lt_length (s : List Char) (c : Char) (i : Nat)
    (h : strrchr s c = some i) : i < s.length := by
  induction s generalizing i with
  | nil => simp [strrchr] at h
  | cons x xs ih =>
    simp only [strrchr] at h
    cases hxs : strrchr xs c with
    | some j =>
      rw [hxs] at h
      simp only [Option.some.injEq] at h
      have := ih j hxs
      simp only [List.length_cons]
      omega
    | none =>
      rw [hxs] at h
      by_cases hx : x = c
      · simp [hx] at h
        simp only [List.length_cons]
        omega
      · simp [hx] at h

/-- Truncation is reported by trunc_strncpy whenever the source string does
not fit in the destination buffer together with its terminator. -/
theorem trunc_strncpy_of_le (src : List Char) (lim : Nat)
    (hnn : Char.ofNat 0 ∉ src) (hpos : 0 < lim) (hlen : lim ≤ src.length) :
    trunc_strncpy src lim = true := by
  have hdest : strncpyDest src lim = src.take lim := by
    simp [strncpyDest, Nat.sub_eq_zero_of_le hlen]
  have hlt : lim - 1 < (src.take lim).length := by
    rw [List.length_take]
    omega
  have hlt2 : lim - 1 < src.length := by omega
  have hval : (src.take lim).getD (lim - 1) (Char.ofNat 0) = src[lim - 1] := by
    rw [List.getD_eq_getElem _ _ hlt, List.getElem_take]
  have hmem : src[lim - 1] ∈ src := List.getElem_mem hlt2
  rw [trunc_strncpy, hdest, hval]
  simp only [decide_eq_true_eq]
  intro h0
  exact hnn (h0 ▸ hmem)

/-- C6 counterexample: with a 108-byte path buffer (the capacity of the
local address family on the reference platform) and a configured path of
108 characters, the branch does fail with the path-length error, but a
socket has already been created before that failure is reported, because
the socket call precedes the length check in the source. -/
theorem c6_socket_created_before_length_check :
    (unixBranch (List.replicate 108 'a') 108 true true false).2
      = some UnixErr.pathLenErr ∧
    UStep.socketCreate ∈ (unixBranch (List.replicate 108 'a') 108 true true false).1 := by
  constructor <;> decide

/-- C6 (amended): for every filesystem-path configuration string longer
than the path-buffer capacity, the setup fails with the path-length error
and the truncated path is never bound; truncation is detected, never
silently accepted.  However, the local-family socket has already been
created when the failure is reported. -/
theorem c6_path_too_long_detected (path : List Char) (cap : Nat)
    (bindOk peers : Bool)
    (hnn : Char.ofNat 0 ∉ path) (hpos : 0 < cap) (hlen : cap ≤ path.length) :
    unixBranch path cap true bindOk peers
      = ([UStep.socketCreate, UStep.pathTooLong], some UnixErr.pathLenErr) ∧
    UStep.bindCall ∉ (unixBranch path cap true bindOk peers).1 := by
  have ht := trunc_strncpy_of_le path cap hnn hpos hlen
  have h1 : unixBranch path cap true bindOk peers
      = ([UStep.socketCreate, UStep.pathTooLong], some UnixErr.pathLenErr) := by
    simp [unixBranch, ht]
  refine ⟨h1, ?_⟩
  rw [h1]
  decide

/-- Witness for c6_path_too_long_detected at a concrete path and capacity. -/
theorem c6_path_too_long_detected_witness :
    unixBranch "aaaa".data 3 true true false
      = ([UStep.socketCreate, UStep.pathTooLong], some UnixErr.pathLenErr) ∧
    UStep.bindCall ∉ (unixBranch "aaaa".data 3 true true false).1 :=
  c6_path_too_long_detected "aaaa".data 3 true false
    (by decide) (by decide) (by decide)

/-- Trace safety of the inner reap loop: at most one reap, at most one
removal, no removal without a reap, and every removal immediately follows
a reap. -/
theorem reapLoop_trace_safe (waits : List WaitRes) :
    countRemoves (reapLoop waits).1 ≤ 1 ∧
    countReaps (reapLoop waits).1 ≤ 1 ∧
    countRemoves (reapLoop waits).1 ≤ countReaps (reapLoop waits).1 ∧
    removesFollowReaps (reapLoop waits).1 = true := by
  induction waits with
  | nil => simp [reapLoop, countRemoves, countReaps, removesFollowReaps]
  | cons w rest ih =>
    cases w with
    | errEintr =>
      obtain ⟨h1, h2, h3, h4⟩ := ih
      exact ⟨by simpa [reapLoop, countRemoves] using h1,
             by simpa [reapLoop, countReaps] using h2,
             by simpa [reapLoop, countRemoves, countReaps] using h3,
             by simpa [reapLoop, removesFollowReaps] using h4⟩
    | errOther =>
      simp [reapLoop, countRemoves, countReaps, removesFollowReaps]
    | reaped stat =>
      simp [reapLoop, countRemoves, countReaps, removesFollowReaps]
    | noChild =>
      simp [reapLoop, countRemoves, countReaps, removesFollowReaps]

/-- Trace safety of the whole parent loop, by reduction to the inner reap
loop. -/
theorem parentLoop_trace_safe (events : List SigEvent) :
    countRemoves (parentLoop events).1 ≤ 1 ∧
    countReaps (parentLoop events).1 ≤ 1 ∧
    countRemoves (parentLoop events).1 ≤ countReaps (parentLoop events).1 ∧
    removesFollowReaps (parentLoop events).1 = true := by
  induction events with
  | nil => simp [parentLoop, countRemoves, countReaps, removesFollowReaps]
  | cons e rest ih =>
    cases e with
    | term =>
      obtain ⟨h1, h2, h3, h4⟩ := ih
      exact ⟨by simpa [parentLoop, countRemoves] using h1,
             by simpa [parentLoop, countReaps] using h2,
             by simpa [parentLoop, countRemoves, countReaps] using h3,
             by simpa [parentLoop, removesFollowReaps] using h4⟩
    | intr => simpa [parentLoop] using ih
    | hup => simpa [parentLoop] using ih
    | readFail =>
      simp [parentLoop, countRemoves, countReaps, removesFollowReaps]
    | chld waits =>
      simpa [parentLoop] using reapLoop_trace_safe waits

/-- C2: in every modelled execution of the parent wait loop the rendezvous
path is removed at most once, the child is reaped at most once, no removal
happens without a reap, and every removal immediately follows the reap that
confirmed the child; in particular two terminate signals delivered before
the child is reaped forward the signal twice and still produce exactly one
reap-and-remove step. -/
theorem c2_remove_once_after_reap (events : List SigEvent) (stat : Nat) :
    countRemoves (parentLoop events).1 ≤ 1 ∧
    countReaps (parentLoop events).1 ≤ 1 ∧
    countRemoves (parentLoop events).1 ≤ countReaps (parentLoop events).1 ∧
    removesFollowReaps (parentLoop events).1 = true ∧
    parentLoop [SigEvent.term, SigEvent.term,
        SigEvent.chld [WaitRes.reaped stat]]
      = ([PAct.forwardTerm, PAct.forwardTerm, PAct.reap stat,
          PAct.removePath],
         ParentEnd.exited (wexitstatus stat)) := by
  obtain ⟨h1, h2, h3, h4⟩ := parentLoop_trace_safe events
  exact ⟨h1, h2, h3, h4, rfl⟩

/-- C3: a SIGCHLD event whose non-blocking wait returns without reporting
the child (a spurious wake) is not retried: the code reaches the assertion
that the wait returned the child pid with the value zero and aborts; only
an interrupted wait is retried, as the second conjunct shows. -/
theorem c3_spurious_wake_hits_assertion :
    parentLoop [SigEvent.chld [WaitRes.noChild]]
      = ([PAct.assertAbort], ParentEnd.aborted) ∧
    parentLoop [SigEvent.chld [WaitRes.errEintr, WaitRes.reaped 0]]
      = ([PAct.waitRetry, PAct.reap 0, PAct.removePath],
         ParentEnd.exited 0) :=
  ⟨rfl, rfl⟩

/-- C1 counterexample: a child killed by the terminate signal makes the
supervisor exit with status zero, exactly the status produced by a child
that exits normally with code zero, so the reported status is not a
distinguished abnormal-termination status. -/
theorem c1_signal_kill_not_distinguished :
    parentLoop [SigEvent.chld [WaitRes.reaped
        (encodeWaitStatus (ChildTermination.signaled 15 false))]]
      = ([PAct.reap 15, PAct.removePath], ParentEnd.exited 0) ∧
    parentLoop [SigEvent.chld [WaitRes.reaped
        (encodeWaitStatus (ChildTermination.exitedNormally 0))]]
      = ([PAct.reap 0, PAct.removePath], ParentEnd.exited 0) :=
  ⟨rfl, rfl⟩

/-- C1 (amended): on reaping the child the supervisor always exits with the
WEXITSTATUS of the raw wait status; for a normal exit with code 0-255 this
equals the exit code of the child, while for a child killed by a signal it is
always zero, which coincides with a normal exit status rather than being a
distinguished abnormal value. -/
theorem c1_supervisor_exit_equals_wexitstatus (t : ChildTermination) :
    (parentLoop [SigEvent.chld [WaitRes.reaped (encodeWaitStatus t)]]).2
      = ParentEnd.exited (wexitstatus (encodeWaitStatus t)) ∧
    (∀ code : Nat,
      wexitstatus (encodeWaitStatus (ChildTermination.exitedNormally code))
        = code % 256) ∧
    (∀ sig : Nat, ∀ core : Bool,
      wexitstatus (encodeWaitStatus (ChildTermination.signaled sig core))
        = 0) := by
  refine ⟨rfl, ?_, ?_⟩
  · intro code
    simp only [encodeWaitStatus, wexitstatus]
    omega
  · intro sig core
    cases core <;> simp [encodeWaitStatus, wexitstatus] <;> omega

/-- Attempting a failing candidate leaves the loop state holding that
failure mode of that candidate, family and original errno. -/
theorem tryCandidates_cons_fail (x : Candidate) (l : List Candidate)
    (e m f : Nat) (hx : candFails x = true) :
    tryCandidates e m f (x :: l)
      = tryCandidates (candErrno x) (candMom x) x.family l := by
  cases hs : x.socketErrno with
  | some e1 => simp [tryCandidates, hs, candErrno, candMom]
  | none =>
    cases hb : x.bindErrnoVal with
    | some e2 => simp [tryCandidates, hs, hb, candErrno, candMom]
    | none => simp [candFails, hs, hb] at hx

/-- C8: the candidate list is iterated in order and the loop stops at the
first candidate whose socket and bind calls both succeed, whatever comes
after it; when every candidate fails, the report carries the failure mode
(socket creation versus bind), the address family of the last attempted
candidate, and the original errno of that candidate, with a bind errno preserved
across the cleanup close. -/
theorem c8_candidate_iteration (pre post : List Candidate) (c : Candidate)
    (e0 m0 f0 : Nat) (hpre : ∀ x ∈ pre, candFails x = true) :
    (candFails c = true →
      tryCandidates e0 m0 f0 (pre ++ [c])
        = TryResult.failure (candMom c) c.family (candErrno c)) ∧
    (c.socketErrno = none → c.bindErrnoVal = none →
      tryCandidates e0 m0 f0 (pre ++ c :: post)
        = TryResult.success c.family) := by
  revert hpre
  induction pre generalizing e0 m0 f0 with
  | nil =>
    intro _
    constructor
    · intro hc
      rw [List.nil_append, tryCandidates_cons_fail c [] e0 m0 f0 hc]
      have hm : candMom c ≠ 0 := by
        unfold candMom
        split <;> omega
      simp [tryCandidates, hm]
    · intro h1 h2
      simp [tryCandidates, h1, h2]
  | cons x xs ih =>
    intro hpre
    have hx : candFails x = true := hpre x (List.mem_cons_self x xs)
    have hxs : ∀ y ∈ xs, candFails y = true := fun y hy =>
      hpre y (List.mem_cons_of_mem x hy)
    constructor
    · intro hc
      rw [List.cons_append, tryCandidates_cons_fail x _ _ _ _ hx]
      exact (ih (candErrno x) (candMom x) x.family hxs).1 hc
    · intro h1 h2
      rw [List.cons_append, tryCandidates_cons_fail x _ _ _ _ hx]
      exact (ih (candErrno x) (candMom x) x.family hxs).2 h1 h2

/-- Witness for c8_candidate_iteration: one socket-failing candidate
followed by a bind-failing candidate yields the bind-failure report with
the preserved bind errno 98 and family 10; with a succeeding second
candidate the loop stops there and ignores the rest. -/
theorem c8_candidate_iteration_witness :
    tryCandidates 0 0 0
        [⟨2, some 13, none, 99⟩, ⟨10, none, some 98, 77⟩]
      = TryResult.failure 2 10 98 ∧
    tryCandidates 0 0 0
        [⟨2, some 13, none, 99⟩, ⟨10, none, none, 77⟩, ⟨4, none, none, 0⟩]
      = TryResult.success 10 :=
  ⟨(c8_candidate_iteration [⟨2, some 13, none, 99⟩] [] ⟨10, none, some 98, 77⟩
      0 0 0 (by decide)).1 (by decide),
   (c8_candidate_iteration [⟨2, some 13, none, 99⟩] [⟨4, none, none, 0⟩]
      ⟨10, none, none, 77⟩ 0 0 0 (by decide)).2 rfl rfl⟩

/-- C7: for the three network-endpoint forms, parsing splits on the last
colon that is not inside a bracketed literal: host with service yields the
(host, service) pair, a bracketed literal with a trailing service keeps the
brackets in the node part and yields the service, a bare service yields no
node (wildcard bind), and a bracketed literal with no trailing service is
the port-required error. -/
theorem c7_inet_endpoint_split (host svc v6 : List Char)
    (hh2 : ']' ∉ host) (hs1 : ':' ∉ svc) (hs2 : ']' ∉ svc) :
    parseInetAddr (host ++ ':' :: svc) = InetParse.split (some host) svc ∧
    parseInetAddr ('[' :: (v6 ++ ']' :: ':' :: svc))
      = InetParse.split (some ('[' :: (v6 ++ [']']))) svc ∧
    parseInetAddr svc = InetParse.split none svc ∧
    parseInetAddr ('[' :: (v6 ++ [']'])) = InetParse.portRequired := by
  have hsvc_col : strrchr svc ':' = none := strrchr_eq_none svc ':' hs1
  have hsvc_br : strrchr svc ']' = none := strrchr_eq_none svc ']' hs2
  have hcs : strrchr (':' :: svc) ':' = some 0 := by simp [strrchr, hsvc_col]
  have hcs_br : strrchr (':' :: svc) ']' = none := by simp [strrchr, hsvc_br]
  refine ⟨?_, ?_, ?_, ?_⟩
  · -- host:service
    have hcol : strrchr (host ++ ':' :: svc) ':' = some host.length := by
      have h := strrchr_append_of_some host (':' :: svc) ':' 0 hcs
      simpa using h
    have hbr : strrchr (host ++ ':' :: svc) ']' = none := by
      rw [strrchr_append_of_none host (':' :: svc) ']' hcs_br]
      exact strrchr_eq_none host ']' hh2
    have htake : (host ++ ':' :: svc).take host.length = host :=
      List.take_left host _
    have hdrop : (host ++ ':' :: svc).drop (host.length + 1) = svc := by
      have h : (host ++ ':' :: svc).drop (host.length + 1) = (':' :: svc).drop 1 :=
        List.drop_append 1
      rw [h]
      rfl
    simp [parseInetAddr, hcol, hbr, htake, hdrop]
  · -- [v6literal]:service
    have h1 : strrchr (']' :: ':' :: svc) ':' = some 1 := by
      simp [strrchr, hsvc_col]
    have h2 : strrchr (v6 ++ ']' :: ':' :: svc) ':' = some (v6.length + 1) :=
      strrchr_append_of_some v6 (']' :: ':' :: svc) ':' 1 h1
    have hcol : strrchr ('[' :: (v6 ++ ']' :: ':' :: svc)) ':'
        = some (v6.length + 2) := by
      simp only [strrchr, h2]
    have hb1 : strrchr (']' :: ':' :: svc) ']' = some 0 := by
      simp [strrchr, hsvc_br]
    have hb2 : strrchr (v6 ++ ']' :: ':' :: svc) ']' = some v6.length := by
      have h := strrchr_append_of_some v6 (']' :: ':' :: svc) ']' 0 hb1
      simpa using h
    have hbrac : strrchr ('[' :: (v6 ++ ']' :: ':' :: svc)) ']'
        = some (v6.length + 1) := by
      simp only [strrchr, hb2]
    have hnotlt : ¬(v6.length + 2 < v6.length + 1) := by omega
    have htake : ('[' :: (v6 ++ ']' :: ':' :: svc)).take (v6.length + 2)
        = '[' :: (v6 ++ [']']) := by
      have h3 : (v6 ++ ']' :: ':' :: svc).take (v6.length + 1)
          = v6 ++ (']' :: ':' :: svc).take 1 := List.take_append 1
      rw [List.take_succ_cons, h3]
      rfl
    have hdrop : ('[' :: (v6 ++ ']' :: ':' :: svc)).drop (v6.length + 3)
        = svc := by
      have h4 : (v6 ++ ']' :: ':' :: svc).drop (v6.length + 2)
          = (']' :: ':' :: svc).drop 2 := List.drop_append 2
      rw [show v6.length + 3 = v6.length + 2 + 1 from rfl,
        List.drop_succ_cons, h4]
      rfl
    simp only [parseInetAddr, hcol, hbrac]
    rw [if_neg hnotlt, htake, hdrop]
  · -- bare service
    simp [parseInetAddr, hsvc_col, hsvc_br]
  · -- [v6literal] with no service: port required
    have hb1 : strrchr [']'] ']' = some 0 := by simp [strrchr]
    have hb2 : strrchr (v6 ++ [']']) ']' = some v6.length := by
      have h := strrchr_append_of_some v6 [']'] ']' 0 hb1
      simpa using h
    have hbrac : strrchr ('[' :: (v6 ++ [']'])) ']' = some (v6.length + 1) := by
      simp only [strrchr, hb2]
    have hc1 : strrchr [']'] ':' = none := by simp [strrchr]
    have hc2 : strrchr (v6 ++ [']']) ':' = strrchr v6 ':' :=
      strrchr_append_of_none v6 [']'] ':' hc1
    cases hv6c : strrchr v6 ':' with
    | none =>
      have hcol : strrchr ('[' :: (v6 ++ [']'])) ':' = none := by
        simp [strrchr, hc2, hv6c]
      simp [parseInetAddr, hcol, hbrac]
    | some i =>
      have hcol : strrchr ('[' :: (v6 ++ [']'])) ':' = some (i + 1) := by
        simp [strrchr, hc2, hv6c]
      have hlt : i + 1 < v6.length + 1 := by
        have h := strrchr_lt_length v6 ':' i hv6c
        omega
      simp [parseInetAddr, hcol, hbrac, hlt]

/-- Witness for c7_inet_endpoint_split at concrete strings: host ho,
service 80, bracketed literal ::1. -/
theorem c7_inet_endpoint_split_witness :
    parseInetAddr ("ho".data ++ ':' :: "80".data)
      = InetParse.split (some "ho".data) "80".data ∧
    parseInetAddr ('[' :: ("::1".data ++ ']' :: ':' :: "80".data))
      = InetParse.split (some ('[' :: ("::1".data ++ [']']))) "80".data ∧
    parseInetAddr "80".data = InetParse.split none "80".data ∧
    parseInetAddr ('[' :: ("::1".data ++ [']'])) = InetParse.portRequired :=
  c7_inet_endpoint_split "ho".data "80".data "::1".data
    (by decide) (by decide) (by decide)

/-- C9: the single-byte write loop of the interop bridge never returns
normally: it performs one send per available outcome and is still looping
after consuming them all, and in particular after a successful send it
issues the send again. -/
theorem c9_write_loop_never_returns (outs : List SendOutcome)
    (rest : List SendOutcome) :
    writeSocketByte outs = WriteResult.stillLooping outs.length ∧
    writeSocketByte (SendOutcome.sendOk :: rest)
      = WriteResult.stillLooping (rest.length + 1) := by
  have key : ∀ l : List SendOutcome,
      writeSocketByte l = WriteResult.stillLooping l.length := by
    intro l
    induction l with
    | nil => rfl
    | cons o os ih => simp [writeSocketByte, ih]
  exact ⟨key outs, by simpa using key (SendOutcome.sendOk :: rest)⟩

/-- C10: evaluation of the single-byte read operation.  A byte below 128 is
returned as itself; but byte 255 is returned as -1, identical to the
end-of-connection return, and byte 128 is returned as -128: bytes at or
above 128 come back negative because the C char holding them is signed on
the reference ABI, contradicting the stated 0-255 contract and making the
-1 sentinel ambiguous. -/
theorem c10_read_sign_extends_high_bytes :
    readSocketByte (RecvOutcome.recvByte 65) = (65, false) ∧
    readSocketByte (RecvOutcome.recvByte 255) = (-1, false) ∧
    readSocketByte RecvOutcome.recvClosed = (-1, false) ∧
    readSocketByte (RecvOutcome.recvByte 128) = (-128, false) ∧
    readSocketByte (RecvOutcome.recvErr 104) = (-1, true) := by
  refine ⟨?_, ?_, rfl, ?_, rfl⟩ <;> decide

/-- C4: evaluation of the environment filter on a concrete inherited
environment.  The filter correctly removes the two bind variables and keeps
PATH, but it also removes the unrelated entry F=1, because match_var stops
comparing at the separator of the entry and then reports a match whenever
the entry name is a prefix (here, the single letter F) of the variable name.
This contradicts both the claim (order-insensitive set equality with exactly
the two bind variables removed) and the comment in the source, which says
the loop copies everything except the variables the program itself uses. -/
theorem c4_build_env_drops_unrelated_entry :
    build_env ["FASTCGI4J_UNIX_BIND=/tmp/sock".data,
               "PATH=/bin".data,
               "FASTCGI4J_INET_BIND=localhost:9000".data,
               "F=1".data]
      = ["PATH=/bin".data] ∧
    match_var UNIX_BIND_VAR "F=1".data = true := by
  constructor
  · rfl
  · rfl

/-- C5 counterexample: when both bind variables are present, the program
does not report a configuration error; the filesystem-path variable simply
takes precedence and the network variable is silently ignored. -/
theorem c5_both_vars_present_is_not_an_error :
    chooseBind (some "/tmp/sock".data) (some "localhost:9000".data)
      = BindConfigResult.chosen (BindChoice.unixMode "/tmp/sock".data) ∧
    decide (chooseBind (some "/tmp/sock".data) (some "localhost:9000".data)
      = BindConfigResult.missingVarsError) = false := by
  constructor
  · rfl
  · decide

/-- C5 (amended): exactly one BindSpec variant is populated; if neither
variable is present the supervisor fails with a fatal configuration error;
when both are present the filesystem-path variable takes precedence and no
conflict error is reported. -/
theorem c5_bind_choice_characterization :
    chooseBind none none = BindConfigResult.missingVarsError ∧
    (∀ u i, chooseBind (some u) i
      = BindConfigResult.chosen (BindChoice.unixMode u)) ∧
    (∀ i, chooseBind none (some i)
      = BindConfigResult.chosen (BindChoice.inetMode i)) := by
  refine ⟨rfl, ?_, fun i => rfl⟩
  intro u i
  cases i <;> rfl

end Bindwrap
